import Mathlib

set_option maxHeartbeats 1000000

/-!
Verification of the lammps-simulator / vashishta-simulator repository.

Python dictionaries (as used for parameter tables, command-line argument
maps and override specifications) are embedded as association lists:
lookup returns the value of the first matching key, and item assignment
(`d[k] = v`) replaces the value of the first occurrence of `k` in place,
or appends `(k, v)` at the end when `k` is absent — exactly the
insertion-order semantics of CPython dicts.  Numeric coefficient values
are embedded as rationals; all literals appearing in the source are
decimal and hence exact.
-/

/-- Coefficient dictionary of one interaction triple: coefficient name to value. -/
abbrev Coeffs := List (String × ℚ)

/-- Parameter table of a substance: triple label to coefficient dictionary. -/
abbrev Table := List (String × Coeffs)

/-- Python dict lookup `d[k]`: value of the first entry whose key is `k`,
`none` models a KeyError. -/
def clookup {α : Type} : List (String × α) → String → Option α
  | [], _ => none
  | (k, v) :: rest, key => if k = key then some v else clookup rest key

/-- Python dict assignment `d[k] = v`: replace the value at the first
occurrence of `k`, or append `(k, v)` when `k` is absent. -/
def dictSet {α : Type} : List (String × α) → String → α → List (String × α)
  | [], key, val => [(key, val)]
  | (k, v) :: rest, key, val =>
      if k = key then (k, val) :: rest else (k, v) :: dictSet rest key val

/-- Keys of a dict, in order. -/
def keysOf {α : Type} (d : List (String × α)) : List String := d.map Prod.fst

/-- Last-write-wins lookup: the value of the LAST entry for `k`, matching a
sequence of Python assignments applied in order. -/
def lastVal {α : Type} (kvs : List (String × α)) (k : String) : Option α :=
  clookup kvs.reverse k

/-- Folding Python assignments of a key/value list into a dict. -/
def setMany {α : Type} (d : List (String × α)) (kvs : List (String × α)) :
    List (String × α) :=
  kvs.foldl (fun d kv => dictSet d kv.1 kv.2) d

/-- Python dict literal construction `{k1: v1, k2: v2, ...}` (duplicate keys:
the later value silently wins, the position of the first occurrence is kept). -/
def buildDict {α : Type} (pairs : List (String × α)) : List (String × α) :=
  setMany [] pairs

theorem clookup_append {α : Type} (a b : List (String × α)) (k : String) :
    clookup (a ++ b) k =
      match clookup a k with
      | some v => some v
      | none => clookup b k := by
  induction a with
  | nil => simp [clookup]
  | cons hd tl ih =>
      obtain ⟨k1, v1⟩ := hd
      by_cases h : k1 = k <;> simp [clookup, h, ih]

theorem clookup_dictSet {α : Type} (d : List (String × α)) (key k : String)
    (val : α) :
    clookup (dictSet d key val) k =
      if key = k then some val else clookup d k := by
  induction d with
  | nil =>
      by_cases h : key = k <;> simp [dictSet, clookup, h]
  | cons hd tl ih =>
      obtain ⟨k1, v1⟩ := hd
      by_cases h1 : k1 = key
      · subst h1
        by_cases h2 : k1 = k <;> simp [dictSet, clookup, h2]
      · by_cases h2 : k1 = k
        · subst h2
          have : ¬ key = k1 := fun h => h1 h.symm
          simp [dictSet, clookup, h1, this]
        · simp [dictSet, clookup, h1, h2, ih]

theorem clookup_eq_none_iff {α : Type} (d : List (String × α)) (k : String) :
    clookup d k = none ↔ k ∉ keysOf d := by
  induction d with
  | nil => simp [clookup, keysOf]
  | cons hd tl ih =>
      obtain ⟨k1, v1⟩ := hd
      by_cases h : k1 = k
      · simp [clookup, keysOf, h, ih]
      · simp [clookup, keysOf, h, ih]
        tauto

theorem clookup_setMany {α : Type} (d : List (String × α))
    (kvs : List (String × α)) (k : String) :
    clookup (setMany d kvs) k =
      match lastVal kvs k with
      | some v => some v
      | none => clookup d k := by
  induction kvs generalizing d with
  | nil => simp [setMany, lastVal, clookup]
  | cons hd tl ih =>
      obtain ⟨k1, v1⟩ := hd
      have hrev : lastVal ((k1, v1) :: tl) k =
          match lastVal tl k with
          | some v => some v
          | none => clookup [(k1, v1)] k := by
        simp only [lastVal, List.reverse_cons]
        exact clookup_append tl.reverse [(k1, v1)] k
      have step : setMany d ((k1, v1) :: tl) = setMany (dictSet d k1 v1) tl := rfl
      rw [step, ih, hrev]
      rcases h : lastVal tl k with _ | v
      · simp only [clookup_dictSet]
        by_cases hk : k1 = k <;> simp [clookup, hk]
      · rfl

theorem lastVal_eq_clookup {α : Type} (kvs : List (String × α)) (k : String)
    (hnd : (keysOf kvs).Nodup) : lastVal kvs k = clookup kvs k := by
  induction kvs with
  | nil => simp [lastVal, clookup]
  | cons hd tl ih =>
      obtain ⟨k1, v1⟩ := hd
      simp only [keysOf, List.map_cons, List.nodup_cons] at hnd
      have htl : lastVal ((k1, v1) :: tl) k =
          match lastVal tl k with
          | some v => some v
          | none => clookup [(k1, v1)] k := by
        simp only [lastVal, List.reverse_cons]
        exact clookup_append tl.reverse [(k1, v1)] k
      rw [htl, ih hnd.2]
      by_cases hk : k1 = k
      · subst hk
        have : clookup tl k1 = none := by
          rw [clookup_eq_none_iff]
          exact hnd.1
        simp [this, clookup]
      · rcases h : clookup tl k with _ | v <;> simp [clookup, hk, h]

/-!
Default parameter tables, from `vashishta_simulator/substance.py`.
`Water.__call__` and `Silica.__call__` return one coefficient dictionary
per interaction triple; these are the substances' default tables that
`generate_parameter_file` merges overrides into.
-/

/-- Water triple `HHH` (substance.py, `Water.__call__`). -/
def waterHHH : Coeffs :=
  [("H", 0.0), ("eta", 9), ("Zi", 0.32983), ("Zj", 0.32983),
   ("lambda1", 4.43), ("D", 0.0), ("lambda4", 2.5), ("W", 0.0),
   ("rc", 5.5), ("B", 0.0), ("gamma", 0.0), ("r0", 0.0), ("C", 0.0),
   ("cos(theta)", 0.0)]

/-- Water triple `OOO`. -/
def waterOOO : Coeffs :=
  [("H", 1965.88), ("eta", 9), ("Zi", -0.65966), ("Zj", -0.65966),
   ("lambda1", 4.43), ("D", 2.0887), ("lambda4", 2.5), ("W", 10.0),
   ("rc", 5.5), ("B", 0.0), ("gamma", 0.0), ("r0", 0.0), ("C", 0.0),
   ("cos(theta)", 0.0)]

/-- Water triple `OHH`. -/
def waterOHH : Coeffs :=
  [("H", 0.61437), ("eta", 9), ("Zi", -0.65966), ("Zj", 0.32983),
   ("lambda1", 4.43), ("D", 0.2611), ("lambda4", 1.51113), ("W", 0.0),
   ("rc", 5.5), ("B", 52.9333), ("gamma", 0.75), ("r0", 1.4), ("C", 0.0),
   ("cos(theta)", -0.138267391)]

/-- Water triple `HOO`. -/
def waterHOO : Coeffs :=
  [("H", 0.61437), ("eta", 9), ("Zi", 0.32983), ("Zj", -0.65966),
   ("lambda1", 4.43), ("D", 0.2611), ("lambda4", 1.51113), ("W", 0.0),
   ("rc", 5.5), ("B", 0.0), ("gamma", 0.0), ("r0", 0.0), ("C", 0.0),
   ("cos(theta)", 0.0)]

/-- Water triples `HOH`, `HHO`, `OHO` and `OOH` are written out separately in
the source with identical all-zero values. -/
def waterZero : Coeffs :=
  [("H", 0.0), ("eta", 0.0), ("Zi", 0.0), ("Zj", 0.0),
   ("lambda1", 0.0), ("D", 0.0), ("lambda4", 0.0), ("W", 0.0),
   ("rc", 0.0), ("B", 0.0), ("gamma", 0.0), ("r0", 0.0), ("C", 0.0),
   ("cos(theta)", 0.0)]

/-- Default water table (`parameters` dict of `Water.__call__`), in
definition order. -/
def waterParams : Table :=
  [("HHH", waterHHH), ("OOO", waterOOO), ("OHH", waterOHH),
   ("HOO", waterHOO), ("HOH", waterZero), ("HHO", waterZero),
   ("OHO", waterZero), ("OOH", waterZero)]

/-- Silica triple `SiSiSi` (substance.py, `Silica.__call__`). -/
def silicaSiSiSi : Coeffs :=
  [("H", 0.39246), ("eta", 11), ("Zi", 1.2), ("Zj", 1.2),
   ("lambda1", 4.43), ("D", 0.0), ("lambda4", 2.5), ("W", 0.0),
   ("rc", 5.5), ("B", 0.0), ("gamma", 0.0), ("r0", 0.0), ("C", 0.0),
   ("cos(theta)", 0.0)]

/-- Silica triple `OOO`. -/
def silicaOOO : Coeffs :=
  [("H", 355.5263), ("eta", 7), ("Zi", -0.6), ("Zj", -0.6),
   ("lambda1", 4.43), ("D", 12.4413912), ("lambda4", 2.5), ("W", 0.0),
   ("rc", 5.5), ("B", 0.0), ("gamma", 0.0), ("r0", 0.0), ("C", 0.0),
   ("cos(theta)", 0.0)]

/-- Silica triple `OSiSi`. -/
def silicaOSiSi : Coeffs :=
  [("H", 78.3143), ("eta", 9), ("Zi", -0.6), ("Zj", 1.2),
   ("lambda1", 4.43), ("D", 24.8827823), ("lambda4", 2.5), ("W", 0.0),
   ("rc", 5.5), ("B", 19.972), ("gamma", 1.0), ("r0", 2.60), ("C", 0.0),
   ("cos(theta)", -0.777145961)]

/-- Silica triple `SiOO`. -/
def silicaSiOO : Coeffs :=
  [("H", 78.3143), ("eta", 9), ("Zi", -0.6), ("Zj", 1.2),
   ("lambda1", 4.43), ("D", 24.8827823), ("lambda4", 2.5), ("W", 0.0),
   ("rc", 5.5), ("B", 4.993), ("gamma", 1.0), ("r0", 2.60), ("C", 0.0),
   ("cos(theta)", -0.333313248)]

/-- Silica triples `SiOSi`, `SiSiO`, `OSiO` and `OOSi` are written out
separately in the source with identical all-zero values. -/
def silicaZero : Coeffs :=
  [("H", 0.0), ("eta", 0.0), ("Zi", 0.0), ("Zj", 0.0),
   ("lambda1", 0.0), ("D", 0.0), ("lambda4", 0.0), ("W", 0.0),
   ("rc", 0.0), ("B", 0.0), ("gamma", 0.0), ("r0", 0.0), ("C", 0.0),
   ("cos(theta)", 0.0)]

/-- Default silica table (`parameters` dict of `Silica.__call__`), in
definition order. -/
def silicaParams : Table :=
  [("SiSiSi", silicaSiSiSi), ("OOO", silicaOOO), ("OSiSi", silicaOSiSi),
   ("SiOO", silicaSiOO), ("SiOSi", silicaZero), ("SiSiO", silicaZero),
   ("OSiO", silicaZero), ("OOSi", silicaZero)]

/-- The two substances accepted by `generate_parameter_file`
(`vashishta_simulator/__init__.py`); any other substance name raises
NotImplementedError before any merging happens. -/
inductive SubstanceKind where
  | water
  | silica
deriving DecidableEq

/-- Default table selected by `generate_parameter_file` for a substance. -/
def defaultTable : SubstanceKind → Table
  | .water => waterParams
  | .silica => silicaParams

/-!
The override merge of `Simulator.generate_parameter_file`
(`vashishta_simulator/__init__.py`, lines 110-179).
-/

/-- One Python statement `self.params[c][parameter] = value`: reading
`self.params[c]` raises KeyError (`none`) when the triple `c` is absent,
otherwise the coefficient dictionary of `c` is updated in place. -/
def setParam (t : Table) (c k : String) (v : ℚ) : Option Table :=
  match clookup t c with
  | none => none
  | some d => some (dictSet t c (dictSet d k v))

/-- Plain branch of the merge (`else:` at line 177): every pair of the
override dictionary is assigned into the triple `c`'s table. -/
def mergePlain (t : Table) (c : String) (kvs : List (String × ℚ)) :
    Option Table :=
  kvs.foldlM (fun t kv => setParam t c kv.1 kv.2) t

/-- Water `"global"` branch (lines 115-138): `Z_O` overrides compute
`Z_H = -value/2`, `Z_H` overrides compute `Z_O = -2*value`, and the
`Zi`/`Zj` entries of the four charge-bearing triples are assigned in the
source's statement order; any other key raises NotImplementedError. -/
def mergeGlobalWater (t : Table) (kvs : List (String × ℚ)) : Option Table :=
  kvs.foldlM (fun t kv =>
    if kv.1 = "Z_O" then
      let zH := - kv.2 / 2
      do
        let t ← setParam t "HHH" "Zi" zH
        let t ← setParam t "HHH" "Zj" zH
        let t ← setParam t "OOO" "Zi" kv.2
        let t ← setParam t "OOO" "Zj" kv.2
        let t ← setParam t "HOO" "Zi" zH
        let t ← setParam t "HOO" "Zj" kv.2
        let t ← setParam t "OHH" "Zi" kv.2
        setParam t "OHH" "Zj" zH
    else if kv.1 = "Z_H" then
      let zO := - 2 * kv.2
      do
        let t ← setParam t "HHH" "Zi" kv.2
        let t ← setParam t "HHH" "Zj" kv.2
        let t ← setParam t "OOO" "Zi" zO
        let t ← setParam t "OOO" "Zj" zO
        let t ← setParam t "HOO" "Zi" kv.2
        let t ← setParam t "HOO" "Zj" zO
        let t ← setParam t "OHH" "Zi" zO
        setParam t "OHH" "Zj" kv.2
    else none) t

/-- Silica `"global"` branch (lines 139-162). -/
def mergeGlobalSilica (t : Table) (kvs : List (String × ℚ)) : Option Table :=
  kvs.foldlM (fun t kv =>
    if kv.1 = "Z_Si" then
      let zO := - kv.2 / 2
      do
        let t ← setParam t "SiSiSi" "Zi" kv.2
        let t ← setParam t "SiSiSi" "Zj" kv.2
        let t ← setParam t "OOO" "Zi" zO
        let t ← setParam t "OOO" "Zj" zO
        let t ← setParam t "SiOO" "Zi" kv.2
        let t ← setParam t "SiOO" "Zj" zO
        let t ← setParam t "OSiSi" "Zi" zO
        setParam t "OSiSi" "Zj" kv.2
    else if kv.1 = "Z_O" then
      let zSi := - 2 * kv.2
      do
        let t ← setParam t "SiSiSi" "Zi" zSi
        let t ← setParam t "SiSiSi" "Zj" zSi
        let t ← setParam t "OOO" "Zi" kv.2
        let t ← setParam t "OOO" "Zj" kv.2
        let t ← setParam t "SiOO" "Zi" zSi
        let t ← setParam t "SiOO" "Zj" kv.2
        let t ← setParam t "OSiSi" "Zi" kv.2
        setParam t "OSiSi" "Zj" zSi
    else none) t

/-- Water `"all"` branch (lines 164-170): each override pair is assigned
into the triples `HHH`, `OOO`, `OHH` and `HOO`, in that order. -/
def mergeAllWater (t : Table) (kvs : List (String × ℚ)) : Option Table :=
  kvs.foldlM (fun t kv => do
    let t ← setParam t "HHH" kv.1 kv.2
    let t ← setParam t "OOO" kv.1 kv.2
    let t ← setParam t "OHH" kv.1 kv.2
    setParam t "HOO" kv.1 kv.2) t

/-- Silica `"all"` branch (lines 171-175): triples `SiSiSi`, `OOO`,
`SiOO` and `OSiSi`. -/
def mergeAllSilica (t : Table) (kvs : List (String × ℚ)) : Option Table :=
  kvs.foldlM (fun t kv => do
    let t ← setParam t "SiSiSi" kv.1 kv.2
    let t ← setParam t "OOO" kv.1 kv.2
    let t ← setParam t "SiOO" kv.1 kv.2
    setParam t "OSiSi" kv.1 kv.2) t

/-- Python `comb.split(",")` (an empty string yields `[""]`, a trailing
comma yields a trailing empty piece). -/
def splitCommaAux : List Char → List Char → List (List Char)
  | [], cur => [cur.reverse]
  | c :: rest, cur =>
      if c = ',' then cur.reverse :: splitCommaAux rest []
      else splitCommaAux rest (c :: cur)

/-- Python `comb.split(",")` on strings. -/
def splitComma (s : String) : List String :=
  (splitCommaAux s.data []).map List.asString

/-- Dispatch on one comb piece `c` (lines 113-179): `"global"` and `"all"`
select the substance-specific convenience branches, anything else is a
literal triple label merged by the plain branch. -/
def applyPiece (s : SubstanceKind) (t : Table) (c : String)
    (kvs : List (String × ℚ)) : Option Table :=
  if c = "global" then
    match s with
    | .water => mergeGlobalWater t kvs
    | .silica => mergeGlobalSilica t kvs
  else if c = "all" then
    match s with
    | .water => mergeAllWater t kvs
    | .silica => mergeAllSilica t kvs
  else mergePlain t c kvs

/-- One override entry `(comb, parameters)` (lines 111-112): the key is
split at commas and each piece is applied in order. -/
def applyComb (s : SubstanceKind) (t : Table) (comb : String)
    (kvs : List (String × ℚ)) : Option Table :=
  (splitComma comb).foldlM (fun t c => applyPiece s t c kvs) t

/-- Merge phase of `Simulator.generate_parameter_file`: defaults for the
substance are loaded, then every override entry is merged in order. -/
def generate_parameter_file_merge (s : SubstanceKind)
    (overrides : List (String × List (String × ℚ))) : Option Table :=
  overrides.foldlM (fun t ckvs => applyComb s t ckvs.1 ckvs.2) (defaultTable s)

theorem mergePlain_spec (t : Table) (c : String) (d : Coeffs)
    (kvs : List (String × ℚ)) (h : clookup t c = some d) :
    ∃ t', mergePlain t c kvs = some t' ∧
      ∀ c', clookup t' c' =
        if c' = c then some (setMany d kvs) else clookup t c' := by
  induction kvs generalizing t d with
  | nil =>
      refine ⟨t, rfl, ?_⟩
      intro c'
      by_cases hc : c' = c
      · subst hc
        simp [setMany, h]
      · simp [hc]
  | cons hd tl ih =>
      obtain ⟨k1, v1⟩ := hd
      have hset : setParam t c k1 v1 = some (dictSet t c (dictSet d k1 v1)) := by
        simp [setParam, h]
      have h1 : clookup (dictSet t c (dictSet d k1 v1)) c =
          some (dictSet d k1 v1) := by
        simp [clookup_dictSet]
      obtain ⟨t', hm, hl⟩ := ih (dictSet t c (dictSet d k1 v1)) (dictSet d k1 v1) h1
      refine ⟨t', ?_, ?_⟩
      · show List.foldlM (fun t kv => setParam t c kv.1 kv.2) t ((k1, v1) :: tl)
            = some t'
        simp only [List.foldlM_cons, hset, Option.bind_some]
        exact hm
      · intro c'
        have hthis := hl c'
        by_cases hc : c' = c
        · subst hc
          simpa [setMany] using hthis
        · rw [hthis, if_neg hc, clookup_dictSet,
            if_neg (fun h' : c = c' => hc h'.symm), if_neg hc]

theorem defaultTable_key_shape (s : SubstanceKind) (c : String) (d : Coeffs)
    (h : clookup (defaultTable s) c = some d) :
    splitComma c = [c] ∧ c ≠ "global" ∧ c ≠ "all" := by
  have hmem : c ∈ keysOf (defaultTable s) := by
    by_contra hmem
    rw [← clookup_eq_none_iff] at hmem
    rw [h] at hmem
    exact Option.noConfusion hmem
  cases s <;>
    simp only [defaultTable, waterParams, silicaParams, keysOf,
      List.map_cons, List.map_nil, List.mem_cons, List.not_mem_nil,
      or_false] at hmem <;>
    rcases hmem with rfl | rfl | rfl | rfl | rfl | rfl | rfl | rfl <;>
    exact ⟨by decide, by decide, by decide⟩

/-- C1: for every substance and every override keyed by a single literal
triple label present in the substance's default table, the merged table
differs from the default table only at that triple: coefficients named in
the override take the override values, every other (triple, coefficient)
pair keeps its default value. -/
theorem spec_c1 (s : SubstanceKind) (c : String) (d : Coeffs)
    (kvs : List (String × ℚ))
    (hpres : clookup (defaultTable s) c = some d)
    (hnd : (keysOf kvs).Nodup) :
    ∃ t', generate_parameter_file_merge s [(c, kvs)] = some t' ∧
      (∀ c', c' ≠ c → clookup t' c' = clookup (defaultTable s) c') ∧
      (∀ k v, clookup kvs k = some v →
        (clookup t' c).bind (fun dc => clookup dc k) = some v) ∧
      (∀ k, k ∉ keysOf kvs →
        (clookup t' c).bind (fun dc => clookup dc k) = clookup d k) := by
  obtain ⟨hsplit, hglobal, hall⟩ := defaultTable_key_shape s c d hpres
  obtain ⟨t', hm, hl⟩ := mergePlain_spec (defaultTable s) c d kvs hpres
  have hred : generate_parameter_file_merge s [(c, kvs)] =
      mergePlain (defaultTable s) c kvs := by
    simp [generate_parameter_file_merge, applyComb, hsplit, applyPiece,
      hglobal, hall, List.foldlM]
  refine ⟨t', by rw [hred]; exact hm, ?_, ?_, ?_⟩
  · intro c' hc
    rw [hl c', if_neg hc]
  · intro k v hk
    have hc : clookup t' c = some (setMany d kvs) := by
      rw [hl c, if_pos rfl]
    rw [hc]
    show clookup (setMany d kvs) k = some v
    rw [clookup_setMany, lastVal_eq_clookup kvs k hnd, hk]
  · intro k hk
    have hc : clookup t' c = some (setMany d kvs) := by
      rw [hl c, if_pos rfl]
    have hnone : clookup kvs k = none := (clookup_eq_none_iff kvs k).mpr hk
    rw [hc]
    show clookup (setMany d kvs) k = clookup d k
    rw [clookup_setMany, lastVal_eq_clookup kvs k hnd, hnone]

/-- Witness for C1: water, triple `OHH`, override `{"rc": 6}`. -/
theorem spec_c1_witness :
    clookup (defaultTable .water) "OHH" = some waterOHH ∧
    (keysOf [(("rc" : String), (6 : ℚ))]).Nodup ∧
    (∃ t', generate_parameter_file_merge .water [("OHH", [("rc", 6)])] = some t' ∧
      (∀ c', c' ≠ "OHH" → clookup t' c' = clookup (defaultTable .water) c') ∧
      (∀ k v, clookup [(("rc" : String), (6 : ℚ))] k = some v →
        (clookup t' "OHH").bind (fun dc => clookup dc k) = some v) ∧
      (∀ k, k ∉ keysOf [(("rc" : String), (6 : ℚ))] →
        (clookup t' "OHH").bind (fun dc => clookup dc k) = clookup waterOHH k)) :=
  ⟨rfl, by decide,
    spec_c1 .water "OHH" waterOHH [("rc", 6)] rfl (by decide)⟩

/-- Coefficient `k` of triple `c` in an optional merged table. -/
def mergedVal (mt : Option Table) (c k : String) : Option ℚ :=
  mt.bind fun t => (clookup t c).bind fun d => clookup d k

/-- C2 counterexample: an `"all"` override with `rc` mapped to 5.5 does NOT
set `rc` on every triple of the water default table: the triple `HOH`
belongs to the default table, yet its `rc` stays at the default 0.0. -/
theorem spec_c2_counterexample :
    clookup waterParams "HOH" = some waterZero ∧
    mergedVal (generate_parameter_file_merge .water [("all", [("rc", 5.5)])])
      "HOH" "rc" = some 0.0 ∧
    (0.0 : ℚ) ≠ 5.5 :=
  ⟨rfl, rfl, by norm_num⟩

/-- C2 amended: the `"all"` override with `rc` mapped to 5.5 sets `rc` to 5.5
on exactly the four triples named in the `"all"` branch (`HHH`, `OOO`, `OHH`,
`HOO` for water; `SiSiSi`, `OOO`, `SiOO`, `OSiSi` for silica); the remaining
four triples of each default table keep their default `rc` of 0.0. -/
theorem spec_c2_amended :
    (mergedVal (generate_parameter_file_merge .water [("all", [("rc", 5.5)])])
        "HHH" "rc" = some 5.5 ∧
     mergedVal (generate_parameter_file_merge .water [("all", [("rc", 5.5)])])
        "OOO" "rc" = some 5.5 ∧
     mergedVal (generate_parameter_file_merge .water [("all", [("rc", 5.5)])])
        "OHH" "rc" = some 5.5 ∧
     mergedVal (generate_parameter_file_merge .water [("all", [("rc", 5.5)])])
        "HOO" "rc" = some 5.5 ∧
     mergedVal (generate_parameter_file_merge .water [("all", [("rc", 5.5)])])
        "HOH" "rc" = some 0.0 ∧
     mergedVal (generate_parameter_file_merge .water [("all", [("rc", 5.5)])])
        "HHO" "rc" = some 0.0 ∧
     mergedVal (generate_parameter_file_merge .water [("all", [("rc", 5.5)])])
        "OHO" "rc" = some 0.0 ∧
     mergedVal (generate_parameter_file_merge .water [("all", [("rc", 5.5)])])
        "OOH" "rc" = some 0.0) ∧
    (mergedVal (generate_parameter_file_merge .silica [("all", [("rc", 5.5)])])
        "SiSiSi" "rc" = some 5.5 ∧
     mergedVal (generate_parameter_file_merge .silica [("all", [("rc", 5.5)])])
        "OOO" "rc" = some 5.5 ∧
     mergedVal (generate_parameter_file_merge .silica [("all", [("rc", 5.5)])])
        "SiOO" "rc" = some 5.5 ∧
     mergedVal (generate_parameter_file_merge .silica [("all", [("rc", 5.5)])])
        "OSiSi" "rc" = some 5.5 ∧
     mergedVal (generate_parameter_file_merge .silica [("all", [("rc", 5.5)])])
        "SiOSi" "rc" = some 0.0 ∧
     mergedVal (generate_parameter_file_merge .silica [("all", [("rc", 5.5)])])
        "SiSiO" "rc" = some 0.0 ∧
     mergedVal (generate_parameter_file_merge .silica [("all", [("rc", 5.5)])])
        "OSiO" "rc" = some 0.0 ∧
     mergedVal (generate_parameter_file_merge .silica [("all", [("rc", 5.5)])])
        "OOSi" "rc" = some 0.0) :=
  ⟨⟨rfl, rfl, rfl, rfl, rfl, rfl, rfl, rfl⟩,
   ⟨rfl, rfl, rfl, rfl, rfl, rfl, rfl, rfl⟩⟩

/-- C3: a water `"global"` override with `Z_H = 0.5` computes
`Z_O = -2 * 0.5 = -1.0` and updates exactly the four charge-bearing
triples: `HHH` gets `Zi = Zj = 0.5`, `OOO` gets `Zi = Zj = -1.0`, `HOO`
gets `Zi = 0.5` and `Zj = -1.0`, `OHH` gets `Zi = -1.0` and `Zj = 0.5`;
the `Zi`/`Zj` of the remaining four triples keep their defaults. -/
theorem spec_c3 :
    (mergedVal (generate_parameter_file_merge .water
        [("global", [("Z_H", 0.5)])]) "HHH" "Zi" = some 0.5 ∧
     mergedVal (generate_parameter_file_merge .water
        [("global", [("Z_H", 0.5)])]) "HHH" "Zj" = some 0.5 ∧
     mergedVal (generate_parameter_file_merge .water
        [("global", [("Z_H", 0.5)])]) "OOO" "Zi" = some (-1.0) ∧
     mergedVal (generate_parameter_file_merge .water
        [("global", [("Z_H", 0.5)])]) "OOO" "Zj" = some (-1.0) ∧
     mergedVal (generate_parameter_file_merge .water
        [("global", [("Z_H", 0.5)])]) "HOO" "Zi" = some 0.5 ∧
     mergedVal (generate_parameter_file_merge .water
        [("global", [("Z_H", 0.5)])]) "HOO" "Zj" = some (-1.0) ∧
     mergedVal (generate_parameter_file_merge .water
        [("global", [("Z_H", 0.5)])]) "OHH" "Zi" = some (-1.0) ∧
     mergedVal (generate_parameter_file_merge .water
        [("global", [("Z_H", 0.5)])]) "OHH" "Zj" = some 0.5) ∧
    (mergedVal (generate_parameter_file_merge .water
        [("global", [("Z_H", 0.5)])]) "HOH" "Zi" = some 0.0 ∧
     mergedVal (generate_parameter_file_merge .water
        [("global", [("Z_H", 0.5)])]) "HOH" "Zj" = some 0.0 ∧
     mergedVal (generate_parameter_file_merge .water
        [("global", [("Z_H", 0.5)])]) "HHO" "Zi" = some 0.0 ∧
     mergedVal (generate_parameter_file_merge .water
        [("global", [("Z_H", 0.5)])]) "HHO" "Zj" = some 0.0 ∧
     mergedVal (generate_parameter_file_merge .water
        [("global", [("Z_H", 0.5)])]) "OHO" "Zi" = some 0.0 ∧
     mergedVal (generate_parameter_file_merge .water
        [("global", [("Z_H", 0.5)])]) "OHO" "Zj" = some 0.0 ∧
     mergedVal (generate_parameter_file_merge .water
        [("global", [("Z_H", 0.5)])]) "OOH" "Zi" = some 0.0 ∧
     mergedVal (generate_parameter_file_merge .water
        [("global", [("Z_H", 0.5)])]) "OOH" "Zj" = some 0.0) := by
  have hZO : mergedVal (generate_parameter_file_merge .water
      [("global", [("Z_H", 0.5)])]) "OOO" "Zi" = some (- 2 * (0.5 : ℚ)) := rfl
  have hZO2 : mergedVal (generate_parameter_file_merge .water
      [("global", [("Z_H", 0.5)])]) "OOO" "Zj" = some (- 2 * (0.5 : ℚ)) := rfl
  have hZO3 : mergedVal (generate_parameter_file_merge .water
      [("global", [("Z_H", 0.5)])]) "HOO" "Zj" = some (- 2 * (0.5 : ℚ)) := rfl
  have hZO4 : mergedVal (generate_parameter_file_merge .water
      [("global", [("Z_H", 0.5)])]) "OHH" "Zi" = some (- 2 * (0.5 : ℚ)) := rfl
  have hval : (- 2 * (0.5 : ℚ)) = -1.0 := by norm_num
  rw [hval] at hZO hZO2 hZO3 hZO4
  exact ⟨⟨rfl, rfl, hZO, hZO2, rfl, hZO3, hZO4, rfl⟩,
    ⟨rfl, rfl, rfl, rfl, rfl, rfl, rfl, rfl⟩⟩

/-!
The `SilicaWater.__call__` table (substance.py, lines 345-794).  The local
variable `OOO` is first assigned the silica-family dictionary (line 361)
and then REASSIGNED the water-family dictionary (line 481); the
`parameters` dict literal (lines 766-792) lists the key `"OOO"` twice,
both occurrences referring to the rebound (water-family) variable.
-/

/-- SilicaWater triple `SiSiSi`. -/
def swSiSiSi : Coeffs :=
  [("H", 0.39246), ("eta", 11), ("Zi", 1.2), ("Zj", 1.2),
   ("lambda1", 4.43), ("D", 0.0), ("lambda4", 2.5), ("W", 0.0),
   ("rc", 5.5), ("B", 0.0), ("gamma", 0.0), ("r0", 0.0), ("C", 0.0),
   ("cos(theta)", 0.0)]

/-- First (silica-family) binding of the local variable `OOO` in
`SilicaWater.__call__` (line 361); shadowed before the dict literal runs. -/
def swOOOsilica : Coeffs :=
  [("H", 355.5263), ("eta", 7), ("Zi", -0.6), ("Zj", -0.6),
   ("lambda1", 4.43), ("D", 12.4413912), ("lambda4", 2.5), ("W", 0.0),
   ("rc", 5.5), ("B", 0.0), ("gamma", 0.0), ("r0", 0.0), ("C", 0.0),
   ("cos(theta)", 0.0)]

/-- SilicaWater triple `OSiSi`. -/
def swOSiSi : Coeffs :=
  [("H", 78.3143), ("eta", 9), ("Zi", -0.6), ("Zj", 1.2),
   ("lambda1", 4.43), ("D", 24.8827823), ("lambda4", 2.5), ("W", 0.0),
   ("rc", 5.5), ("B", 19.972), ("gamma", 1.0), ("r0", 2.60), ("C", 0.0),
   ("cos(theta)", -0.77714596)]

/-- SilicaWater triple `SiOO`. -/
def swSiOO : Coeffs :=
  [("H", 78.3143), ("eta", 9), ("Zi", 1.2), ("Zj", -0.6),
   ("lambda1", 4.43), ("D", 24.8827823), ("lambda4", 2.5), ("W", 0.0),
   ("rc", 5.5), ("B", 4.993), ("gamma", 1.0), ("r0", 2.60), ("C", 0.0),
   ("cos(theta)", -0.333313248)]

/-- SilicaWater triples `SiOSi`, `SiSiO`, `OSiO`, `OOSi` are written out
separately in the source with identical all-zero values. -/
def swZeroSil : Coeffs :=
  [("H", 0.0), ("eta", 0.0), ("Zi", 0.0), ("Zj", 0.0),
   ("lambda1", 0.0), ("D", 0.0), ("lambda4", 0.0), ("W", 0.0),
   ("rc", 0.0), ("B", 0.0), ("gamma", 0.0), ("r0", 0.0), ("C", 0.0),
   ("cos(theta)", 0.0)]

/-- SilicaWater triple `HHH`. -/
def swHHH : Coeffs :=
  [("H", 0.0), ("eta", 9), ("Zi", 0.32983), ("Zj", 0.32983),
   ("lambda1", 4.43), ("D", 0.0), ("lambda4", 2.5), ("W", 0.0),
   ("rc", 5.5), ("B", 0.0), ("gamma", 0.0), ("r0", 0.0), ("C", 0.0),
   ("cos(theta)", 1.0)]

/-- Second (water-family) binding of the local variable `OOO` in
`SilicaWater.__call__` (line 481); the binding in effect when the dict
literal is built. -/
def swOOOwater : Coeffs :=
  [("H", 1965.88), ("eta", 9), ("Zi", -0.65966), ("Zj", -0.65966),
   ("lambda1", 4.43), ("D", 2.0887), ("lambda4", 2.5), ("W", 10.0),
   ("rc", 5.5), ("B", 0.0), ("gamma", 0.0), ("r0", 0.0), ("C", 0.0),
   ("cos(theta)", 1.0)]

/-- SilicaWater triple `OHH`. -/
def swOHH : Coeffs :=
  [("H", 0.61437), ("eta", 9), ("Zi", -0.65966), ("Zj", 0.32983),
   ("lambda1", 4.43), ("D", 0.2611), ("lambda4", 1.51113), ("W", 0.0),
   ("rc", 5.5), ("B", 52.9333), ("gamma", 0.75), ("r0", 1.4), ("C", 0.0),
   ("cos(theta)", -0.138267391)]

/-- SilicaWater triple `HOO`. -/
def swHOO : Coeffs :=
  [("H", 0.61437), ("eta", 9), ("Zi", 0.32983), ("Zj", -0.65966),
   ("lambda1", 4.43), ("D", 0.2611), ("lambda4", 1.51113), ("W", 0.0),
   ("rc", 5.5), ("B", 0.0), ("gamma", 0.0), ("r0", 0.0), ("C", 0.0),
   ("cos(theta)", 1.0)]

/-- The fifteen mixed SilicaWater triples (`HOH`, `HHO`, `OHO`, `OOH`,
`HSiSi`, `SiHH`, `SiHSi`, `HSiH`, `HHSi`, `OSiH`, `OHSi`, `SiOH`, `SiHO`,
`HSiO`, `HOSi`) are written out separately in the source with identical
values: all zero except `cos(theta) = 1.0`. -/
def swZeroMix : Coeffs :=
  [("H", 0.0), ("eta", 0.0), ("Zi", 0.0), ("Zj", 0.0),
   ("lambda1", 0.0), ("D", 0.0), ("lambda4", 0.0), ("W", 0.0),
   ("rc", 0.0), ("B", 0.0), ("gamma", 0.0), ("r0", 0.0), ("C", 0.0),
   ("cos(theta)", 1.0)]

/-- Key/value pairs of the `parameters` dict literal of
`SilicaWater.__call__` (lines 766-792), in source order.  The key `"OOO"`
appears twice; by the time the literal executes, the variable `OOO` holds
the water-family dictionary, so both occurrences carry it. -/
def silicaWaterPairs : List (String × Coeffs) :=
  [("SiSiSi", swSiSiSi), ("OOO", swOOOwater), ("OSiSi", swOSiSi),
   ("SiOO", swSiOO), ("SiOSi", swZeroSil), ("SiSiO", swZeroSil),
   ("OSiO", swZeroSil), ("OOSi", swZeroSil), ("HHH", swHHH),
   ("OOO", swOOOwater), ("OHH", swOHH), ("HOO", swHOO),
   ("HOH", swZeroMix), ("HHO", swZeroMix), ("OHO", swZeroMix),
   ("OOH", swZeroMix), ("HSiSi", swZeroMix), ("SiHH", swZeroMix),
   ("SiHSi", swZeroMix), ("HSiH", swZeroMix), ("HHSi", swZeroMix),
   ("OSiH", swZeroMix), ("OHSi", swZeroMix), ("SiOH", swZeroMix),
   ("SiHO", swZeroMix), ("HSiO", swZeroMix), ("HOSi", swZeroMix)]

/-- Table returned by `SilicaWater.__call__`: the dict built from the
literal's pairs (duplicate keys collapse, later value wins). -/
def silicaWaterParams : Table := buildDict silicaWaterPairs

/-- C9: the `SilicaWater` dict literal lists `"OOO"` twice; the built table
has a single `"OOO"` entry carrying the water-family values
(`H = 1965.88`, `Zi = Zj = -0.65966`) and not the silica-family values
(`H = 355.5263`). -/
theorem spec_c9 :
    (keysOf silicaWaterPairs).count "OOO" = 2 ∧
    (keysOf silicaWaterParams).count "OOO" = 1 ∧
    clookup silicaWaterParams "OOO" = some swOOOwater ∧
    clookup swOOOwater "H" = some 1965.88 ∧
    clookup swOOOwater "Zi" = some (-0.65966) ∧
    clookup swOOOwater "Zj" = some (-0.65966) ∧
    clookup swOOOsilica "H" = some 355.5263 ∧
    (1965.88 : ℚ) ≠ 355.5263 :=
  ⟨by decide, by decide, rfl, rfl, rfl, rfl, rfl, by norm_num⟩


/-!
Serialization (`vashishta_simulator/__init__.py`, lines 47-86):
`ordered_parameter_string` appends the values of an ordered list of
coefficient keys to an initial token list and joins everything with the
separator `"  \t"`; `append_type_to_file` writes each triple as two such
lines.  The file I/O is dropped; the two produced lines are the content.
A Python `KeyError` on a missing coefficient key is modelled by `none`.
The stringification `str(param)` of a numeric value is an explicit
parameter `rdr` (CPython float formatting is not re-implemented; none of
the claims depend on it).
-/

/-- The loop `for suffix in param_suffices: param_list.append(params[suffix])`:
values of the keys in order, `none` as soon as one lookup raises KeyError. -/
def lookupVals (params : Coeffs) : List String → Option (List ℚ)
  | [] => some []
  | s :: rest =>
      match clookup params s with
      | none => none
      | some v =>
          match lookupVals params rest with
          | none => none
          | some vs => some (v :: vs)

/-- Tokens matched by `re.findall('[A-Z][^A-Z]*', name)`: maximal runs
starting at an uppercase letter, leading non-uppercase characters are
skipped.  `cur` is the reversed current run. -/
def findallCapsAux : List Char → List Char → List (List Char)
  | [], cur => if cur = [] then [] else [cur.reverse]
  | c :: rest, cur =>
      if c.isUpper then
        if cur = [] then findallCapsAux rest [c]
        else cur.reverse :: findallCapsAux rest [c]
      else
        if cur = [] then findallCapsAux rest []
        else findallCapsAux rest (c :: cur)

/-- `re.findall('[A-Z][^A-Z]*', name)` on a string. -/
def findallCaps (name : String) : List String :=
  (findallCapsAux name.data []).map List.asString

/-- `Simulator.ordered_parameter_string(params, param_suffices, param_list,
string)`: the values of the suffices are looked up (KeyError → `none`) and
appended to `param_list`, then every token is appended to `string`
followed by `"  \t"`, and a final newline is added. -/
def ordered_parameter_string (rdr : ℚ → String) (params : Coeffs)
    (sfx : List String) (paramList : List String) (string : String) :
    Option String :=
  match lookupVals params sfx with
  | none => none
  | some vals =>
      some ((paramList ++ vals.map rdr).foldl
        (fun s p => s ++ p ++ "  \t") string ++ "\n")

/-- Line-1 coefficient keys of `append_type_to_file`, correctly ordered. -/
def paramsLine1 : List String := ["H", "eta", "Zi", "Zj", "r1s", "D", "r4s"]

/-- Line-2 coefficient keys of `append_type_to_file`, correctly ordered. -/
def paramsLine2 : List String := ["W", "rc", "B", "xi", "r0", "C", "cos(theta)"]

/-- `Simulator.append_type_to_file(name, params, filename)`: the two lines
appended for one triple — line 1 starts with the uppercase-boundary
decomposition of the label, line 2 with `(len(name) + 6)` spaces. -/
def append_type_to_file (rdr : ℚ → String) (name : String)
    (params : Coeffs) : Option (String × String) :=
  match ordered_parameter_string rdr params paramsLine1 (findallCaps name) "" with
  | none => none
  | some l1 =>
      match ordered_parameter_string rdr params paramsLine2 []
          (List.asString (List.replicate (name.length + 6) ' ')) with
      | none => none
      | some l2 => some (l1, l2)

theorem string_foldl_append (l : List String) (s0 : String) :
    List.foldl (fun r s => r ++ s) s0 l =
      s0 ++ List.foldl (fun r s => r ++ s) "" l := by
  induction l generalizing s0 with
  | nil =>
      apply String.ext
      simp
  | cons hd tl ih =>
      simp only [List.foldl_cons]
      rw [ih (s0 ++ hd), ih (("" : String) ++ hd)]
      apply String.ext
      simp

theorem foldl_sep_append (ts : List String) (s0 : String) :
    ts.foldl (fun s p => s ++ p ++ "  \t") s0 =
      s0 ++ String.join (ts.map (fun p => p ++ "  \t")) := by
  have hassoc : ∀ s p : String, s ++ p ++ "  \t" = s ++ (p ++ "  \t") := by
    intro s p
    apply String.ext
    simp
  have hmap := List.foldl_map (fun p : String => p ++ "  \t")
    (fun r s : String => r ++ s) ts s0
  simp only [hassoc]
  rw [← hmap, string_foldl_append]
  rfl

theorem lookupVals_length (params : Coeffs) (sfx : List String)
    (vals : List ℚ) (h : lookupVals params sfx = some vals) :
    vals.length = sfx.length := by
  induction sfx generalizing vals with
  | nil =>
      simp only [lookupVals, Option.some.injEq] at h
      simp [← h]
  | cons hd tl ih =>
      rcases h1 : clookup params hd with _ | v
      · simp [lookupVals, h1] at h
      · rcases h2 : lookupVals params tl with _ | vs
        · simp [lookupVals, h1, h2] at h
        · simp only [lookupVals, h1, h2, Option.some.injEq] at h
          subst h
          simp [ih vs h2]

theorem lookupVals_eq_none (params : Coeffs) (sfx : List String) (x : String)
    (hx : x ∈ sfx) (hmiss : clookup params x = none) :
    lookupVals params sfx = none := by
  induction sfx with
  | nil => cases hx
  | cons hd tl ih =>
      rcases List.mem_cons.mp hx with rfl | hx2
      · simp [lookupVals, hmiss]
      · rcases h1 : clookup params hd with _ | v
        · simp [lookupVals, h1]
        · simp [lookupVals, h1, ih hx2]

/-- C7: serialization writes each triple as two lines: line 1 is the
uppercase-boundary decomposition of the triple label followed by the 7
line-1 coefficients in fixed order, each token followed by the separator;
line 2 starts with `len(name) + 6` spaces followed by the remaining 7
coefficients in fixed order; and `"SiOO"` decomposes to
`["Si", "O", "O"]`. -/
theorem spec_c7 (rdr : ℚ → String) (name : String) (params : Coeffs)
    (vs1 vs2 : List ℚ)
    (h1 : lookupVals params paramsLine1 = some vs1)
    (h2 : lookupVals params paramsLine2 = some vs2) :
    append_type_to_file rdr name params = some
      (String.join ((findallCaps name ++ vs1.map rdr).map
          (fun p => p ++ "  \t")) ++ "\n",
       List.asString (List.replicate (name.length + 6) ' ') ++
         String.join ((vs2.map rdr).map (fun p => p ++ "  \t")) ++ "\n") ∧
    vs1.length = 7 ∧ vs2.length = 7 ∧
    findallCaps "SiOO" = ["Si", "O", "O"] := by
  refine ⟨?_, ?_, ?_, by decide⟩
  · have e1 := foldl_sep_append (findallCaps name ++ vs1.map rdr) ""
    have e2 := foldl_sep_append (vs2.map rdr)
      (List.asString (List.replicate (name.length + 6) ' '))
    simp only [append_type_to_file, ordered_parameter_string, h1, h2,
      List.nil_append, e1, e2]
    have hleft : ("" : String) ++ String.join ((findallCaps name ++
        vs1.map rdr).map (fun p => p ++ "  \t")) =
        String.join ((findallCaps name ++ vs1.map rdr).map
          (fun p => p ++ "  \t")) := by
      apply String.ext
      simp
    rw [hleft]
  · rw [lookupVals_length params paramsLine1 vs1 h1]
    rfl
  · rw [lookupVals_length params paramsLine2 vs2 h2]
    rfl

/-- Witness input for C7: a coefficient dictionary holding all 14 expected
keys. -/
def sampleCoeffs : Coeffs :=
  [("H", 1), ("eta", 2), ("Zi", 3), ("Zj", 4), ("r1s", 5), ("D", 6),
   ("r4s", 7), ("W", 8), ("rc", 9), ("B", 10), ("xi", 11), ("r0", 12),
   ("C", 13), ("cos(theta)", 14)]

/-- Witness for C7 at the label `"SiOO"` and the sample dictionary. -/
theorem spec_c7_witness :
    lookupVals sampleCoeffs paramsLine1 = some [1, 2, 3, 4, 5, 6, 7] ∧
    lookupVals sampleCoeffs paramsLine2 = some [8, 9, 10, 11, 12, 13, 14] ∧
    (append_type_to_file (fun _ => "v") "SiOO" sampleCoeffs = some
      (String.join ((findallCaps "SiOO" ++
          ([1, 2, 3, 4, 5, 6, 7] : List ℚ).map (fun _ => "v")).map
          (fun p => p ++ "  \t")) ++ "\n",
       List.asString (List.replicate ("SiOO".length + 6) ' ') ++
         String.join ((([8, 9, 10, 11, 12, 13, 14] : List ℚ).map
           (fun _ => "v")).map (fun p => p ++ "  \t")) ++ "\n") ∧
     ([1, 2, 3, 4, 5, 6, 7] : List ℚ).length = 7 ∧
     ([8, 9, 10, 11, 12, 13, 14] : List ℚ).length = 7 ∧
     findallCaps "SiOO" = ["Si", "O", "O"]) :=
  ⟨rfl, rfl,
    spec_c7 (fun _ => "v") "SiOO" sampleCoeffs
      [1, 2, 3, 4, 5, 6, 7] [8, 9, 10, 11, 12, 13, 14] rfl rfl⟩

/-- C8: an override naming an unknown coefficient key is merged without
validation — the pair is written into the in-memory table and the merge
returns a table; an error arises only during serialization, when
`ordered_parameter_string` looks up an expected coefficient key that is
absent from a triple's dictionary. -/
theorem spec_c8 (t : Table) (c : String) (d : Coeffs) (k : String) (v : ℚ)
    (rdr : ℚ → String) (params : Coeffs) (sfx : List String)
    (pl : List String) (s0 : String) (x : String)
    (h : clookup t c = some d) (hx : x ∈ sfx)
    (hmiss : clookup params x = none) :
    (∃ t', mergePlain t c [(k, v)] = some t' ∧
      (clookup t' c).bind (fun dc => clookup dc k) = some v) ∧
    ordered_parameter_string rdr params sfx pl s0 = none := by
  constructor
  · obtain ⟨t', hm, hl⟩ := mergePlain_spec t c d [(k, v)] h
    refine ⟨t', hm, ?_⟩
    rw [hl c, if_pos rfl]
    show clookup (setMany d [(k, v)]) k = some v
    rw [clookup_setMany]
    simp [lastVal, clookup]
  · unfold ordered_parameter_string
    rw [lookupVals_eq_none params sfx x hx hmiss]

/-- Witness for C8: the override key `"bogus"` is merged into the water
triple `HHH`, and serializing `HHH`'s dictionary fails because the
expected line-1 key `"r1s"` is absent from it. -/
theorem spec_c8_witness :
    clookup waterParams "HHH" = some waterHHH ∧
    "r1s" ∈ paramsLine1 ∧
    clookup waterHHH "r1s" = none ∧
    ((∃ t', mergePlain waterParams "HHH" [("bogus", 1)] = some t' ∧
      (clookup t' "HHH").bind (fun dc => clookup dc "bogus") = some 1) ∧
     ordered_parameter_string (fun _ => "v") waterHHH paramsLine1 [] ""
       = none) :=
  ⟨rfl, by decide, rfl,
    spec_c8 waterParams "HHH" waterHHH "bogus" 1 (fun _ => "v") waterHHH
      paramsLine1 [] "" "r1s" rfl (by decide) rfl⟩

/-!
Execution backend (`lammps_simulator/device.py`).  `get_exec_list` builds
the argument list; `Device.__call__` first assigns
`self.lmp_args["-in"] = lmp_script` and then calls it.  Python values are
stringified by `str(...)` before being split or appended; the embedding
receives the already-stringified forms (keys and flag values as strings;
a command-line variable is either a scalar with its `str()` form, or a
list/tuple/ndarray with the `str()` forms of its elements).
-/

/-- Python `str.split()` with no argument: split on runs of whitespace,
discarding empty pieces.  `cur` is the reversed current token. -/
def pySplitAux : List Char → List Char → List (List Char)
  | [], cur => if cur = [] then [] else [cur.reverse]
  | c :: rest, cur =>
      if c.isWhitespace then
        if cur = [] then pySplitAux rest []
        else cur.reverse :: pySplitAux rest []
      else pySplitAux rest (c :: cur)

/-- Python `str.split()` on strings. -/
def pySplit (s : String) : List String :=
  (pySplitAux s.data []).map List.asString

/-- A value of the `lmp_var` dict: `get_exec_list` expands list, tuple and
ndarray values into one token per element, and stringifies anything else
into a single token. -/
inductive LmpVal where
  | scalar (s : String)
  | seq (xs : List String)

/-- `Device.get_exec_list(num_procs, lmp_exec, lmp_args, lmp_var)`
(device.py, lines 186-215): start from
`["mpirun", "-n", str(num_procs), lmp_exec]`, then append each `lmp_args`
key followed by its whitespace-split value, then for each `lmp_var` entry
append `"-var"`, the name, and the value token(s). -/
def get_exec_list (numProcs : ℕ) (lmpExec : String)
    (lmpArgs : List (String × String)) (lmpVar : List (String × LmpVal)) :
    List String :=
  let e0 := ["mpirun", "-n", toString numProcs, lmpExec]
  let e1 := lmpArgs.foldl (fun acc kv => acc ++ (kv.1 :: pySplit kv.2)) e0
  lmpVar.foldl (fun acc kv =>
    match kv.2 with
    | .seq xs => acc ++ ["-var", kv.1] ++ xs
    | .scalar s => acc ++ ["-var", kv.1, s]) e1

/-- The argument list built by `Device.__call__` (device.py, lines 86-87):
`self.lmp_args["-in"] = lmp_script` followed by `get_exec_list`. -/
def device_call_exec_list (numProcs : ℕ) (lmpExec : String)
    (lmpArgs : List (String × String)) (script : String)
    (lmpVar : List (String × LmpVal)) : List String :=
  get_exec_list numProcs lmpExec (dictSet lmpArgs "-in" script) lmpVar

theorem foldl_append_join {α β : Type} (g : β → List α) (l : List β)
    (e : List α) :
    l.foldl (fun acc x => acc ++ g x) e = e ++ (l.map g).flatten := by
  induction l generalizing e with
  | nil => simp
  | cons hd tl ih => simp [ih]

/-- C4: `get_exec_list` returns, in order, the launcher, the process-count
flag and count, the executable, then for each `lmp_args` entry the flag
followed by its whitespace-split value tokens, then one `-var name value...`
group per variable (sequence values expand to one token per element); in
particular with `lmp_args={"-pk": "a b"}`, the script bound to `-in` by
the caller, and `lmp_var={"temp": 300}`, the list is
`mpirun -n 4 lmp -pk a b -in script.in -var temp 300`. -/
theorem spec_c4 (numProcs : ℕ) (lmpExec : String)
    (lmpArgs : List (String × String)) (lmpVar : List (String × LmpVal)) :
    get_exec_list numProcs lmpExec lmpArgs lmpVar =
      ["mpirun", "-n", toString numProcs, lmpExec] ++
        (lmpArgs.map (fun kv => kv.1 :: pySplit kv.2)).flatten ++
        (lmpVar.map (fun kv =>
          match kv.2 with
          | .seq xs => ["-var", kv.1] ++ xs
          | .scalar s => ["-var", kv.1, s])).flatten ∧
    device_call_exec_list 4 "lmp" [("-pk", "a b")] "script.in"
        [("temp", .scalar "300")] =
      ["mpirun", "-n", "4", "lmp", "-pk", "a", "b", "-in", "script.in",
       "-var", "temp", "300"] := by
  constructor
  · show (lmpVar.foldl _ (lmpArgs.foldl _ _)) = _
    rw [foldl_append_join (fun kv : String × String => kv.1 :: pySplit kv.2)]
    have hvar : ∀ (e : List String),
        lmpVar.foldl (fun acc kv =>
          match kv.2 with
          | .seq xs => acc ++ ["-var", kv.1] ++ xs
          | .scalar s => acc ++ ["-var", kv.1, s]) e =
        e ++ (lmpVar.map (fun kv =>
          match kv.2 with
          | .seq xs => ["-var", kv.1] ++ xs
          | .scalar s => ["-var", kv.1, s])).flatten := by
      intro e
      induction lmpVar generalizing e with
      | nil => simp
      | cons hd tl ih =>
          obtain ⟨k, val⟩ := hd
          cases val with
          | scalar s =>
              rw [List.foldl_cons]
              refine (ih _).trans ?_
              simp [List.append_assoc]
          | seq xs =>
              rw [List.foldl_cons]
              refine (ih _).trans ?_
              simp [List.append_assoc]
    rw [hvar]
  · rfl

/-!
Directory provisioning (`lammps_simulator/__init__.py`, lines 32-49).
The filesystem is modelled as the list of existing directory paths;
`os.makedirs` fails (FileExistsError) exactly when the path already
exists, and otherwise creates it.
-/

/-- `os.makedirs(p)` on a filesystem: `none` models FileExistsError. -/
def makedirs (fs : List String) (p : String) : Option (List String) :=
  if p ∈ fs then none else some (p :: fs)

/-- The candidate paths probed by `Simulator.__init__` with
`overwrite=False`: the base path, then `path_1`, `path_2`, .... -/
def candPath (dir : String) : ℕ → String
  | 0 => dir
  | Nat.succ k => dir ++ "_" ++ toString (k + 1)

/-- The `while repeat:` loop of `Simulator.__init__`: try to create the
current candidate; on FileExistsError increment the extension and retry.
`fuel` bounds the number of iterations of the embedding (the loop in the
source runs until creation succeeds). -/
def initLoop (fs : List String) (dir : String) :
    ℕ → ℕ → Option (String × List String)
  | 0, _ => none
  | fuel + 1, ext =>
      match makedirs fs (candPath dir ext) with
      | some fs2 => some (candPath dir ext, fs2)
      | none => initLoop fs dir fuel (ext + 1)

/-- `Simulator.__init__(directory, overwrite)`: with `overwrite=True` the
directory is created and FileExistsError ignored; with `overwrite=False`
candidates are probed until creation succeeds.  Returns the adopted
working directory (with the trailing `"/"` appended at line 49) and the
resulting filesystem.  Since the candidates `dir`, `dir_1`, ...,
`dir_{n}` for `n = fs.length` are pairwise distinct while only
`fs.length` paths exist, `fs.length + 1` iterations always suffice. -/
def simulator_init (overwrite : Bool) (dir : String) (fs : List String) :
    Option (String × List String) :=
  if overwrite then
    some (dir ++ "/",
      match makedirs fs dir with
      | some fs2 => fs2
      | none => fs)
  else
    (initLoop fs dir (fs.length + 1) 0).map (fun r => (r.1 ++ "/", r.2))

theorem initLoop_spec (fs : List String) (dir : String) (fuel ext : ℕ)
    (wd : String) (fs2 : List String)
    (h : initLoop fs dir fuel ext = some (wd, fs2)) :
    ∃ k, ext ≤ k ∧ wd = candPath dir k ∧ wd ∉ fs ∧
      (∀ j, ext ≤ j → j < k → candPath dir j ∈ fs) ∧
      fs2 = wd :: fs := by
  induction fuel generalizing ext with
  | zero => cases h
  | succ fuel ih =>
      by_cases hmem : candPath dir ext ∈ fs
      · have hstep : initLoop fs dir (fuel + 1) ext =
            initLoop fs dir fuel (ext + 1) := by
          simp [initLoop, makedirs, hmem]
        rw [hstep] at h
        obtain ⟨k, hk1, hk2, hk3, hk4, hk5⟩ := ih (ext + 1) h
        refine ⟨k, by omega, hk2, hk3, ?_, hk5⟩
        intro j hj1 hj2
        rcases Nat.eq_or_lt_of_le hj1 with rfl | hj3
        · exact hmem
        · exact hk4 j hj3 hj2
      · have hstep : initLoop fs dir (fuel + 1) ext =
            some (candPath dir ext, candPath dir ext :: fs) := by
          simp [initLoop, makedirs, hmem]
        rw [hstep] at h
        obtain ⟨rfl, rfl⟩ := Prod.mk.injEq .. ▸ Option.some.injEq .. ▸ h
        exact ⟨ext, le_refl _, rfl, hmem, fun j hj1 hj2 => absurd hj1 (by omega),
          rfl⟩

/-- C5: with `overwrite=False` the constructor probes `path`, `path_1`,
`path_2`, ... in order and adopts the first whose creation succeeds; two
successive constructions on the same initially-absent base path create
two distinct directories, the second suffixed `_1`; with `overwrite=True`
the directory is created and a pre-existence error is ignored. -/
theorem spec_c5 (dir : String) (fs : List String) (wd : String)
    (fs2 : List String) (d2 : String) (g : List String)
    (h : simulator_init false dir fs = some (wd, fs2)) :
    (∃ k, wd = candPath dir k ++ "/" ∧ candPath dir k ∉ fs ∧
      (∀ j, j < k → candPath dir j ∈ fs) ∧ fs2 = candPath dir k :: fs) ∧
    simulator_init false "path" [] = some ("path/", ["path"]) ∧
    simulator_init false "path" ["path"] =
      some ("path_1/", ["path_1", "path"]) ∧
    simulator_init true d2 g =
      some (d2 ++ "/", if d2 ∈ g then g else d2 :: g) := by
  refine ⟨?_, rfl, rfl, ?_⟩
  · have hexp : simulator_init false dir fs =
        (initLoop fs dir (fs.length + 1) 0).map (fun r => (r.1 ++ "/", r.2)) :=
      rfl
    rw [hexp] at h
    rcases hloop : initLoop fs dir (fs.length + 1) 0 with _ | ⟨w0, f0⟩
    · rw [hloop] at h
      cases h
    · rw [hloop] at h
      have hred : (Option.some (w0, f0)).map
          (fun r : String × List String => (r.1 ++ "/", r.2)) =
          some (w0 ++ "/", f0) := rfl
      rw [hred] at h
      obtain ⟨h3, h4⟩ := (Prod.mk.injEq ..).mp (Option.some.inj h)
      obtain ⟨k, _, hk2, hk3, hk4, hk5⟩ :=
        initLoop_spec fs dir (fs.length + 1) 0 w0 f0 hloop
      subst h3
      subst h4
      exact ⟨k, by rw [hk2], hk2 ▸ hk3, fun j hj => hk4 j (Nat.zero_le j) hj,
        hk5.trans (by rw [hk2])⟩
  · by_cases hg : d2 ∈ g <;> simp [simulator_init, makedirs, hg]

/-- Witness for C5: base path `"path"` with `"path"` already existing. -/
theorem spec_c5_witness :
    simulator_init false "path" ["path"] =
      some ("path_1/", ["path_1", "path"]) ∧
    ((∃ k, ("path_1/" : String) = candPath "path" k ++ "/" ∧
        candPath "path" k ∉ ["path"] ∧
        (∀ j, j < k → candPath "path" j ∈ ["path"]) ∧
        (["path_1", "path"] : List String) = candPath "path" k :: ["path"]) ∧
     simulator_init false "path" [] = some ("path/", ["path"]) ∧
     simulator_init false "path" ["path"] =
       some ("path_1/", ["path_1", "path"]) ∧
     simulator_init true "other" ["path"] =
       some ("other" ++ "/",
         if ("other" : String) ∈ (["path"] : List String) then ["path"]
         else "other" :: ["path"])) :=
  ⟨rfl, spec_c5 "path" ["path"] "path_1/" ["path_1", "path"] "other"
    ["path"] rfl⟩

/-!
Job handles (`lammps_simulator/device.py` lines 110-135,
`lammps_simulator/computer.py` lines 125-138).  For a slurm run the job ID
is `int(re.findall("([0-9]+)", output)[0])` — the first run of decimal
digits in the submission output; indexing an empty match list raises an
unhandled IndexError, modelled by `none`.  For a direct run the job ID is
the spawned process's PID, which the embedding receives as an input.
-/

/-- Maximal runs of decimal digits, as matched by
`re.findall("([0-9]+)", output)`.  `cur` is the reversed current run. -/
def digitRunsAux : List Char → List Char → List (List Char)
  | [], cur => if cur = [] then [] else [cur.reverse]
  | c :: rest, cur =>
      if c.isDigit then digitRunsAux rest (c :: cur)
      else if cur = [] then digitRunsAux rest []
      else cur.reverse :: digitRunsAux rest []

/-- `re.findall("([0-9]+)", s)` on a string. -/
def digitRuns (s : String) : List String :=
  (digitRunsAux s.data []).map List.asString

/-- Python `int(...)` on a string of decimal digits. -/
def parseDigits (s : String) : ℕ :=
  s.data.foldl (fun n c => 10 * n + (c.toNat - Char.toNat '0')) 0

/-- `int(re.findall("([0-9]+)", output)[0])`: `none` models the
IndexError raised when the output contains no digits. -/
def scrape_job_id (output : String) : Option ℕ :=
  match digitRuns output with
  | [] => none
  | r :: _ => some (parseDigits r)

/-- Job handle returned by `Device.__call__` and `Custom.__call__`: the
scraped queue job ID for a slurm run, the child PID otherwise. -/
def device_call_job_id (slurm : Bool) (output : String) (pid : ℕ) :
    Option ℕ :=
  if slurm then scrape_job_id output else some pid

theorem digitRunsAux_skip (pre rest : List Char)
    (h : ∀ c ∈ pre, c.isDigit = false) :
    digitRunsAux (pre ++ rest) [] = digitRunsAux rest [] := by
  induction pre with
  | nil => rfl
  | cons c pr ih =>
      have hc : c.isDigit = false := h c (List.mem_cons_self ..)
      have hpr : ∀ x ∈ pr, x.isDigit = false := fun x hx =>
        h x (List.mem_cons_of_mem _ hx)
      simp [digitRunsAux, hc, ih hpr]

theorem digitRunsAux_accum : ∀ (run rest cur : List Char),
    (∀ c ∈ run, c.isDigit = true) →
    digitRunsAux (run ++ rest) cur = digitRunsAux rest (run.reverse ++ cur)
  | [], rest, cur, _ => by simp
  | c :: pr, rest, cur, h => by
      have hc := h c (List.mem_cons_self ..)
      have hpr : ∀ x ∈ pr, x.isDigit = true := fun x hx =>
        h x (List.mem_cons_of_mem _ hx)
      calc digitRunsAux ((c :: pr) ++ rest) cur
          = digitRunsAux (pr ++ rest) (c :: cur) := by
            simp [digitRunsAux, hc]
        _ = digitRunsAux rest (pr.reverse ++ (c :: cur)) :=
            digitRunsAux_accum pr rest (c :: cur) hpr
        _ = digitRunsAux rest ((c :: pr).reverse ++ cur) := by
            simp

/-- C6: a queued (slurm) run returns the integer value of the first run of
decimal digits in the submission output; a non-queued run returns the
child's PID; when the output contains no digits the index error is
reached (`none`). -/
theorem spec_c6 (out1 out2 out3 : String) (pid : ℕ)
    (pre run post : List Char)
    (hnod : ∀ c ∈ out2.data, c.isDigit = false)
    (hsplit : out3.data = pre ++ run ++ post)
    (hpre : ∀ c ∈ pre, c.isDigit = false)
    (hrun : run ≠ [])
    (hrund : ∀ c ∈ run, c.isDigit = true)
    (hpost : post = [] ∨ ∃ c r2, post = c :: r2 ∧ c.isDigit = false) :
    device_call_job_id false out1 pid = some pid ∧
    device_call_job_id true out2 pid = none ∧
    device_call_job_id true out3 pid = some (parseDigits run.asString) ∧
    device_call_job_id true "Submitted batch job 12345" 0 = some 12345 := by
  refine ⟨rfl, ?_, ?_, by decide⟩
  · have h2 : digitRunsAux (out2.data ++ []) [] = digitRunsAux [] [] :=
      digitRunsAux_skip out2.data [] hnod
    rw [List.append_nil] at h2
    show scrape_job_id out2 = none
    unfold scrape_job_id digitRuns
    rw [h2]
    rfl
  · have hrev : run.reverse ≠ [] := by
      simpa using hrun
    have hruns : digitRunsAux out3.data [] = run :: digitRunsAux post.tail [] ∨
        digitRunsAux out3.data [] = [run] := by
      rw [hsplit, List.append_assoc, digitRunsAux_skip pre (run ++ post) hpre,
        digitRunsAux_accum run post [] hrund, List.append_nil]
      rcases hpost with rfl | ⟨c, r2, rfl, hc⟩
      · right
        simp [digitRunsAux, hrev]
      · left
        simp [digitRunsAux, hc, hrev]
    show scrape_job_id out3 = some (parseDigits run.asString)
    unfold scrape_job_id digitRuns
    rcases hruns with hr | hr <;> rw [hr] <;> rfl

/-- Witness for C6: outputs `"x"` (direct run), `"abc"` (no digits) and
`"job 42!"` (first digit run `42`). -/
theorem spec_c6_witness :
    (∀ c ∈ ("abc" : String).data, c.isDigit = false) ∧
    ("job 42!" : String).data =
      ['j', 'o', 'b', ' '] ++ ['4', '2'] ++ ['!'] ∧
    (device_call_job_id false "x" 7 = some 7 ∧
     device_call_job_id true "abc" 7 = none ∧
     device_call_job_id true "job 42!" 7 =
       some (parseDigits (List.asString ['4', '2'])) ∧
     device_call_job_id true "Submitted batch job 12345" 0 = some 12345) :=
  ⟨by decide, by decide,
    spec_c6 "x" "abc" "job 42!" 7 ['j', 'o', 'b', ' '] ['4', '2'] ['!']
      (by decide) (by decide) (by decide) (by decide) (by decide)
      (Or.inr ⟨'!', [], rfl, by decide⟩)⟩

/-!
Working-directory discipline of `Simulator.run`
(`lammps_simulator/__init__.py`, lines 79-98).  The OS process state is
modelled by the current working directory plus a record of spawned
commands; the execution backend is an arbitrary state transformer
returning a job ID.
-/

/-- Process-visible OS state: current working directory and the commands
spawned so far. -/
structure OSState where
  cwd : String
  spawned : List (List String)

/-- `Simulator.run(computer, ...)`: save `os.getcwd()`, `os.chdir` into the
working directory, invoke the backend on the script, then `os.chdir` back
to the saved path and return the job ID. -/
def simulator_run (st : OSState) (wd lmpScript : String)
    (computer : String → OSState → OSState × ℕ) : OSState × ℕ :=
  let mainPath := st.cwd
  let st1 : OSState := { st with cwd := wd }
  let res := computer lmpScript st1
  ({ res.1 with cwd := mainPath }, res.2)

/-- C10: every `Simulator.run` invocation that returns normally restores
the caller's working directory: the backend is invoked with the working
directory as cwd, its job ID is passed through, and the final cwd equals
the initial cwd, whatever the backend did to the state. -/
theorem spec_c10 (st : OSState) (wd lmpScript : String)
    (computer : String → OSState → OSState × ℕ) :
    (simulator_run st wd lmpScript computer).1.cwd = st.cwd ∧
    simulator_run st wd lmpScript computer =
      ((fun r : OSState × ℕ => ({ r.1 with cwd := st.cwd }, r.2))
        (computer lmpScript { st with cwd := wd })) :=
  ⟨rfl, rfl⟩
